import Mathlib

/-!
Shallow embedding of `apps/web/pages/api/cron/bookingReminder.ts`:
the tiered booking-reminder dispatch handler. JavaScript option values
(`undefined`/`null`) are modelled with `Option`, JS string truthiness with
`strTruthy`, thrown exceptions with an `error` field that, once set, freezes
the run state (no catch exists in the handler).
-/

/-- Result of `getTranslation locale ns`: an opaque translation function,
identified by the locale and namespace it was resolved for. -/
structure Translator where
  loc : String
  ns : String
deriving Repr, DecidableEq

/-- Modelled from the spec: the Localization Resolver (`@server/lib/i18n`,
not in the sources) maps a locale tag to a translation function. -/
def getTranslation (locale ns : String) : Translator :=
  { loc := locale, ns := ns }

/-- The `language` block stored on organizer and attendee payload entries. -/
structure EvtLanguage where
  translate : Translator
  locale : String
deriving Repr, DecidableEq

/-- An opaque `destinationCalendar` row reference. -/
structure DestinationCalendar where
  id : Nat
deriving Repr, DecidableEq

/-- The organizer projection selected by the booking query
(`user: { select: { email, name, username, locale, timeZone, destinationCalendar } }`). -/
structure UserRec where
  email : String
  name : Option String
  username : Option String
  locale : Option String
  timeZone : Option String
  destinationCalendar : Option DestinationCalendar
deriving Repr, DecidableEq

/-- An attendee row: name, email, timeZone, locale. -/
structure Attendee where
  name : String
  email : String
  timeZone : String
  locale : Option String
deriving Repr, DecidableEq

/-- `BookingStatus` from `@prisma/client`. -/
inductive BookingStatus
  | cancelled
  | accepted
  | rejected
  | pending
deriving Repr, DecidableEq

/-- `ReminderType` from `@prisma/client`. -/
inductive ReminderType
  | PENDING_BOOKING_CONFIRMATION
  | EXPIRED_BOOKING
deriving Repr, DecidableEq

/-- A JSON scalar. -/
inductive JsonPrim
  | null
  | bool (b : Bool)
  | num (n : Int)
  | str (s : String)
deriving Repr, DecidableEq

/-- A Prisma JSON value, the type of `booking.customInputs`, modelled one
level deep (custom inputs are flat key/value maps): a scalar, an array of
scalars, or a key/value object. -/
inductive JsonVal
  | prim (p : JsonPrim)
  | arr (elems : List JsonPrim)
  | obj (fields : List (String × JsonPrim))
deriving Repr, DecidableEq

/-- A calendar instant, with the components `Date.prototype.toISOString`
renders. -/
structure DateTime where
  year : Nat
  month : Nat
  day : Nat
  hour : Nat
  minute : Nat
  second : Nat
  ms : Nat
deriving Repr, DecidableEq

/-- The decimal digit character for `n % 10`. -/
def digitChar (n : Nat) : Char :=
  Char.ofNat (48 + n % 10)

/-- Two-digit zero-padded decimal rendering (ISO fields are in range). -/
def pad2 (n : Nat) : String :=
  String.mk [digitChar (n / 10), digitChar n]

/-- Three-digit zero-padded decimal rendering. -/
def pad3 (n : Nat) : String :=
  String.mk [digitChar (n / 100), digitChar (n / 10), digitChar n]

/-- Four-digit zero-padded decimal rendering. -/
def pad4 (n : Nat) : String :=
  String.mk [digitChar (n / 1000), digitChar (n / 100), digitChar (n / 10), digitChar n]

/-- `Date.prototype.toISOString`: "YYYY-MM-DDTHH:mm:ss.sssZ". -/
def DateTime.toISOString (d : DateTime) : String :=
  pad4 d.year ++ "-" ++ pad2 d.month ++ "-" ++ pad2 d.day ++ "T" ++
    pad2 d.hour ++ ":" ++ pad2 d.minute ++ ":" ++ pad2 d.second ++ "." ++
    pad3 d.ms ++ "Z"

/-- Structural check on a character list for the ISO-8601 combined
date-time shape "YYYY-MM-DDTHH:mm:ss.sssZ": 24 characters, digits in the
numeric positions, the literal separators in between. -/
def isISO8601Chars : List Char → Bool
  | [y1, y2, y3, y4, s1, mo1, mo2, s2, d1, d2, t,
     h1, h2, c1, mi1, mi2, c2, se1, se2, dot, f1, f2, f3, z] =>
      [y1, y2, y3, y4, mo1, mo2, d1, d2, h1, h2, mi1, mi2, se1, se2, f1, f2, f3].all
        Char.isDigit &&
      (s1 == '-') && (s2 == '-') && (t == 'T') && (c1 == ':') && (c2 == ':') &&
      (dot == '.') && (z == 'Z')
  | _ => false

/-- Structural check that a string has the ISO-8601 combined date-time shape
"YYYY-MM-DDTHH:mm:ss.sssZ". -/
def isISO8601 (s : String) : Bool :=
  isISO8601Chars s.toList

/-- A booking row as selected by the handler's `findMany` (identity, content
fields, organizer projection, attendees, destination calendar, plus the
`status`/`createdAt` columns its `where` clause constrains). `createdAt` is
an epoch-minutes instant. -/
structure Booking where
  id : Nat
  uid : String
  title : String
  description : Option String
  customInputs : Option JsonVal
  location : Option String
  startTime : DateTime
  endTime : DateTime
  createdAt : Int
  status : BookingStatus
  user : Option UserRec
  attendees : List Attendee
  destinationCalendar : Option DestinationCalendar
deriving Repr, DecidableEq

/-- A `reminderMail` row. -/
structure ReminderMail where
  referenceId : Nat
  reminderType : ReminderType
  elapsedMinutes : Int
deriving Repr, DecidableEq

/-- An organizer/attendee block of the composed `CalendarEvent`. -/
structure Person where
  email : String
  name : String
  timeZone : String
  language : EvtLanguage
deriving Repr, DecidableEq

/-- The composed `CalendarEvent` payload handed to the notification sender. -/
structure CalendarEvent where
  type : String
  title : String
  description : Option String
  customInputs : Option JsonVal
  location : String
  startTime : String
  endTime : String
  organizer : Person
  attendees : List Person
  uid : String
  destinationCalendar : Option DestinationCalendar
deriving Repr, DecidableEq

/-- JS truthiness of a string-or-undefined value: truthy iff present and
non-empty. -/
def strTruthy : Option String → Bool
  | some s => !(s == "")
  | none => false

/-- JS `a || b` on string-or-undefined values. -/
def jsOrStr (a b : Option String) : Option String :=
  if strTruthy a then a else b

/-- JS `a || undefined` on a string-or-null value (`booking.description ||
undefined`): empty or absent collapses to undefined. -/
def jsOrUndefined (a : Option String) : Option String :=
  if strTruthy a then a else none

/-- JS `a || b` on object-or-null values (objects are always truthy). -/
def jsOrObj {α : Type} (a b : Option α) : Option α :=
  match a with
  | some x => some x
  | none => b

/-- Modelled from the spec: `isPrismaObjOrUndefined` (`@calcom/lib`, not in
the sources) keeps a custom-inputs value only if it forms a well-formed
key/value structure, otherwise yields undefined. -/
def isPrismaObjOrUndefined : Option JsonVal → Option JsonVal
  | some (JsonVal.obj fields) => some (JsonVal.obj fields)
  | _ => none

/-- One attendee block of the payload, as built inside
`attendeesListPromises`: name, email, timeZone, and a language block whose
translator is resolved for `attendee.locale ?? "en"`. -/
def attendeeBlock (a : Attendee) : Person :=
  { name := a.name
    email := a.email
    timeZone := a.timeZone
    language :=
      { translate := getTranslation (a.locale.getD "en") "common"
        locale := a.locale.getD "en" } }

/-- The composed `CalendarEvent` (`evt` in the handler) for a booking that
passed organizer validation, with `name` the resolved display name and `tz`
the organizer timezone. -/
def buildEvt (b : Booking) (u : UserRec) (name tz : String) : CalendarEvent :=
  { type := b.title
    title := b.title
    description := jsOrUndefined b.description
    customInputs := isPrismaObjOrUndefined b.customInputs
    location := b.location.getD ""
    startTime := b.startTime.toISOString
    endTime := b.endTime.toISOString
    organizer :=
      { email := u.email
        name := name
        timeZone := tz
        language :=
          { translate := getTranslation (u.locale.getD "en") "common"
            locale := u.locale.getD "en" } }
    attendees := b.attendees.map attendeeBlock
    uid := b.uid
    destinationCalendar := jsOrObj b.destinationCalendar u.destinationCalendar }

/-- The organizer display name `user?.name || user?.username`. -/
def displayName (u : UserRec) : Option String :=
  jsOrStr u.name u.username

/-- The inline organizer validation `!user || !name || !user.timeZone`,
negated: the booking has a user with a truthy display name and timezone. -/
def validOrganizer (b : Booking) : Bool :=
  match b.user with
  | none => false
  | some u => strTruthy (displayName u) && strTruthy u.timeZone

/-- An exception escaping the handler (it has no try/catch): the email
transport or the `reminderMail.create` insert rejected for a booking. -/
inductive RunError
  | sendFailed (bookingId : Nat)
  | ledgerFailed (bookingId : Nat)
deriving Repr, DecidableEq

/-- The run environment: the wall clock (epoch minutes), the `CRON_API_KEY`
variable, and the ids on which the external email transport respectively the
ledger insert reject. -/
structure Env where
  now : Int
  cronApiKey : Option String
  sendFailIds : List Nat
  ledgerFailIds : List Nat
deriving Repr

/-- The observable state threaded through a run: the `reminderMail` table,
the `notificationsSent` counter, the payloads handed to the sender (with the
ids they were sent for), the ids logged by `console.error`, and the pending
exception (none while the run is alive). -/
structure RunState where
  reminders : List ReminderMail
  notificationsSent : Nat
  emails : List CalendarEvent
  sentIds : List Nat
  logs : List Nat
  error : Option RunError
deriving Repr, DecidableEq

/-- The fresh state at handler entry, over the current `reminderMail` table. -/
def initRunState (reminders : List ReminderMail) : RunState :=
  { reminders := reminders
    notificationsSent := 0
    emails := []
    sentIds := []
    logs := []
    error := none }

/-- The reminder record the handler inserts after a successful send. -/
def mkReminder (referenceId : Nat) (interval : Int) : ReminderMail :=
  { referenceId := referenceId
    reminderType := ReminderType.PENDING_BOOKING_CONFIRMATION
    elapsedMinutes := interval }

/-- The `prisma.booking.findMany` query: pending bookings created at or
before `now - interval` minutes. -/
def fetchPending (bookings : List Booking) (now interval : Int) : List Booking :=
  bookings.filter fun b =>
    b.status == BookingStatus.pending && decide (b.createdAt ≤ now - interval)

/-- The `prisma.reminderMail.findMany` query: records of kind
`PENDING_BOOKING_CONFIRMATION` whose `referenceId` is among `ids` and whose
`elapsedMinutes` is at least `interval`. -/
def fetchReminders (reminders : List ReminderMail) (ids : List Nat) (interval : Int) :
    List ReminderMail :=
  reminders.filter fun r =>
    r.reminderType == ReminderType.PENDING_BOOKING_CONFIRMATION &&
      ids.contains r.referenceId && decide (interval ≤ r.elapsedMinutes)

/-- The candidate list of a threshold pass: the fetched pending bookings
minus those with a qualifying reminder record
(`bookings.filter((b) => !reminders.some((r) => r.referenceId == b.id))`). -/
def candidateBookings (bookings : List Booking) (reminders : List ReminderMail)
    (now interval : Int) : List Booking :=
  let fetched := fetchPending bookings now interval
  let rems := fetchReminders reminders (fetched.map Booking.id) interval
  fetched.filter fun b => !(rems.any fun r => r.referenceId == b.id)

/-- The body of the per-booking loop. An unset `error` means the run is
alive; once set, every later step is dead code (the exception propagates,
nothing catches it). A booking failing organizer validation is logged and
skipped. Otherwise the payload is composed and sent; a transport rejection
raises before anything is recorded, a ledger rejection raises after the
email went out but before the record and the counter. -/
def processBooking (env : Env) (interval : Int) (s : RunState) (b : Booking) : RunState :=
  if s.error.isSome then s
  else
    match b.user with
    | none => { s with logs := s.logs ++ [b.id] }
    | some u =>
      if strTruthy (displayName u) && strTruthy u.timeZone then
        let evt := buildEvt b u ((displayName u).getD "") (u.timeZone.getD "")
        if env.sendFailIds.contains b.id then
          { s with error := some (RunError.sendFailed b.id) }
        else
          let s1 := { s with emails := s.emails ++ [evt], sentIds := s.sentIds ++ [b.id] }
          if env.ledgerFailIds.contains b.id then
            { s1 with error := some (RunError.ledgerFailed b.id) }
          else
            { s1 with
              reminders := s1.reminders ++ [mkReminder b.id interval]
              notificationsSent := s1.notificationsSent + 1 }
      else { s with logs := s.logs ++ [b.id] }

/-- One threshold pass: fetch, exclude already-reminded bookings, process
each candidate in order. -/
def runInterval (env : Env) (bookings : List Booking) (interval : Int)
    (s : RunState) : RunState :=
  if s.error.isSome then s
  else
    (candidateBookings bookings s.reminders env.now interval).foldl
      (processBooking env interval) s

/-- The dispatch over an arbitrary threshold list. -/
def runDispatchWith (intervals : List Int) (env : Env) (bookings : List Booking)
    (reminders : List ReminderMail) : RunState :=
  intervals.foldl (fun s i => runInterval env bookings i s) (initRunState reminders)

/-- `const reminderIntervalMinutes = [48 * 60, 24 * 60, 3 * 60]`. -/
def reminderIntervalMinutes : List Int := [48 * 60, 24 * 60, 3 * 60]

/-- The reference dispatch: the threshold list in its literal order. -/
def runDispatch (env : Env) (bookings : List Booking)
    (reminders : List ReminderMail) : RunState :=
  runDispatchWith reminderIntervalMinutes env bookings reminders

/-- The HTTP request surface the handler reads: the `authorization` header,
the `apiKey` query parameter, and the method. -/
structure ApiRequest where
  authorization : Option String
  apiKeyQuery : Option String
  method : String
deriving Repr, DecidableEq

/-- An HTTP response the handler produces: status code, the `message` body
field if any, the `notificationsSent` body field if any. -/
structure HttpResponse where
  status : Nat
  message : Option String
  notificationsSent : Option Nat
deriving Repr, DecidableEq

/-- The full handler. The api key is `req.headers.authorization ||
req.query.apiKey`; the key check runs before the method check. A thrown
`RunError` escapes the handler, so the response is `none` in that case; the
final run state is returned alongside for observation. -/
def handler (env : Env) (bookings : List Booking) (reminders : List ReminderMail)
    (req : ApiRequest) : Option HttpResponse × RunState :=
  let apiKey := jsOrStr req.authorization req.apiKeyQuery
  if env.cronApiKey ≠ apiKey then
    (some { status := 401, message := some "Not authenticated", notificationsSent := none },
      initRunState reminders)
  else if req.method ≠ "POST" then
    (some { status := 405, message := some "Invalid method", notificationsSent := none },
      initRunState reminders)
  else
    let s := runDispatch env bookings reminders
    match s.error with
    | some _ => (none, s)
    | none =>
      (some { status := 200, message := none, notificationsSent := some s.notificationsSent },
        s)

/-- The completion trace of a fan-out over `tasks`: the concurrently
resolved results arrive in the order `order` lists their indices, each
paired with its index. -/
def completionTrace {α : Type} (order : List Nat) (tasks : List α) : List (Nat × α) :=
  order.filterMap fun i => (tasks.get? i).map fun t => (i, t)

/-- `Promise.all` fan-in: the joined list is read out slot by slot in index
order from the completed results, independent of arrival order; it resolves
only once every slot is filled. -/
def promiseAllFanIn {α : Type} (n : Nat) (completed : List (Nat × α)) :
    Option (List α) :=
  let slots := (List.range n).map fun i =>
    (completed.find? fun p => p.1 == i).map Prod.snd
  if slots.all Option.isSome then some (slots.filterMap id) else none

/-! Concrete fixtures used by witnesses and counterexamples. -/

/-- A complete organizer: Jane, UTC, no explicit locale. -/
def uJane : UserRec :=
  { email := "jane@example.com"
    name := some "Jane"
    username := none
    locale := none
    timeZone := some "UTC"
    destinationCalendar := none }

/-- A concrete instant. -/
def dtMay : DateTime :=
  { year := 2022, month := 5, day := 1, hour := 9, minute := 30, second := 0, ms := 0 }

/-- A pending booking created at epoch minute 0 with a valid organizer. -/
def bOld : Booking :=
  { id := 1
    uid := "uid1"
    title := "Meeting"
    description := none
    customInputs := none
    location := none
    startTime := dtMay
    endTime := dtMay
    createdAt := 0
    status := BookingStatus.pending
    user := some uJane
    attendees := []
    destinationCalendar := none }

/-- A second pending booking, same age, distinct id. -/
def bOld2 : Booking :=
  { bOld with id := 2, uid := "uid2" }

/-- A booking with no organizer row attached. -/
def bNoUser : Booking :=
  { bOld with id := 3, uid := "uid3", user := none }

/-- A run clock 2880 minutes after the bookings above were created, no
failures, no configured api key. -/
def envBase : Env :=
  { now := 2880, cronApiKey := none, sendFailIds := [], ledgerFailIds := [] }

/-- `envBase` with the email transport rejecting for booking 1. -/
def envSendFail : Env :=
  { envBase with sendFailIds := [1] }

/-- `envBase` with `CRON_API_KEY` configured. -/
def envWithKey : Env :=
  { envBase with cronApiKey := some "secret" }

/-- C3: counterexample. Processing the permutation `[180, 1440, 2880]` of the
reference threshold list on a pending booking 2880 minutes old with an empty
ledger sends three notifications and writes three ledger records, while the
reference order sends one and writes one: the claim that any permutation
yields the same notifications and ledger is false. -/
theorem claim_C3_counterexample :
    [(180 : Int), 1440, 2880].Perm reminderIntervalMinutes ∧
    ¬ ((runDispatchWith [180, 1440, 2880] envBase [bOld] []).sentIds =
          (runDispatch envBase [bOld] []).sentIds ∧
        (runDispatchWith [180, 1440, 2880] envBase [bOld] []).reminders =
          (runDispatch envBase [bOld] []).reminders) := by
  constructor
  · decide
  · decide

/-- C3: amended. Reordering the threshold list does affect the outcome: on a
pending booking old enough for every threshold and an empty ledger, the
ascending permutation sends a notification and writes a ledger record at
every threshold (three in total, since a record at a smaller elapsed value
does not suppress a larger threshold), while the reference descending order
sends exactly one, at the largest threshold. -/
theorem claim_C3_amended_order_dependent :
    (runDispatchWith [180, 1440, 2880] envBase [bOld] []).notificationsSent = 3 ∧
    (runDispatchWith [180, 1440, 2880] envBase [bOld] []).reminders =
      [mkReminder 1 180, mkReminder 1 1440, mkReminder 1 2880] ∧
    (runDispatch envBase [bOld] []).notificationsSent = 1 ∧
    (runDispatch envBase [bOld] []).reminders = [mkReminder 1 2880] := by
  refine ⟨by decide, by decide, by decide, by decide⟩

/-- C1: counterexample. With the email transport rejecting for booking 1 and
booking 2 equally due, the run aborts with an uncaught `sendFailed`
exception: booking 2 — which the same run processes when no failure occurs —
is never reached, nothing is counted, and no ledger record is written. The
send failure is thus neither caught nor contained to its booking, refuting
"the loop continues" and "never aborts the whole run". -/
theorem claim_C1_counterexample :
    (runDispatch envSendFail [bOld, bOld2] []).error = some (RunError.sendFailed 1) ∧
    (runDispatch envSendFail [bOld, bOld2] []).sentIds = [] ∧
    (runDispatch envSendFail [bOld, bOld2] []).reminders = [] ∧
    (runDispatch envSendFail [bOld, bOld2] []).notificationsSent = 0 ∧
    (runDispatch envBase [bOld, bOld2] []).sentIds = [1, 2] := by
  refine ⟨by decide, by decide, by decide, by decide, by decide⟩

/-- C6: counterexample. The api-key check runs before the method check: a
GET request that does not carry the configured key is answered `401 {message:
"Not authenticated"}`, not `405 {message: "Invalid method"}`, refuting "every
request whose method is not POST is answered 405". -/
theorem claim_C6_counterexample :
    ({ authorization := none, apiKeyQuery := none, method := "GET" } : ApiRequest).method
        ≠ "POST" ∧
    (handler envWithKey [] []
        { authorization := none, apiKeyQuery := none, method := "GET" }).1 =
      some { status := 401, message := some "Not authenticated", notificationsSent := none } ∧
    ((handler envWithKey [] []
        { authorization := none, apiKeyQuery := none, method := "GET" }).1.map
      HttpResponse.status) ≠ some 405 := by
  refine ⟨by decide, by decide, by decide⟩

/-- C6: amended. For every request that passes the api-key check (the
`CRON_API_KEY` value equals `authorization || apiKey`) and whose method is
not POST, the handler responds 405 with body message "Invalid method" and
performs no reminder processing: the returned state is the untouched initial
state (no queries acted on, no emails, no ledger writes, zero count). -/
theorem claim_C6_amended (env : Env) (bookings : List Booking)
    (reminders : List ReminderMail) (req : ApiRequest)
    (hauth : env.cronApiKey = jsOrStr req.authorization req.apiKeyQuery)
    (hm : req.method ≠ "POST") :
    handler env bookings reminders req =
      (some { status := 405, message := some "Invalid method", notificationsSent := none },
        initRunState reminders) := by
  simp [handler, hauth, hm]

/-- C6 witness: the amended theorem applied to an authenticated DELETE
request. -/
theorem claim_C6_witness :
    handler envWithKey [] []
        { authorization := some "secret", apiKeyQuery := none, method := "DELETE" } =
      (some { status := 405, message := some "Invalid method", notificationsSent := none },
        initRunState []) :=
  claim_C6_amended envWithKey [] []
    { authorization := some "secret", apiKeyQuery := none, method := "DELETE" }
    (by decide) (by decide)

/-- C10: with `CRON_API_KEY` unset and a request carrying neither an
authorization header nor an apiKey query parameter, the key comparison holds
between two undefined values, so the request is not answered 401 and the
dispatch runs normally: the returned state is the full dispatch state (and a
completed run is answered 200 with its count). -/
theorem claim_C10_no_key_no_auth (env : Env) (bookings : List Booking)
    (reminders : List ReminderMail) (hkey : env.cronApiKey = none) :
    (handler env bookings reminders
        { authorization := none, apiKeyQuery := none, method := "POST" }).1 ≠
      some { status := 401, message := some "Not authenticated", notificationsSent := none } ∧
    (handler env bookings reminders
        { authorization := none, apiKeyQuery := none, method := "POST" }).2 =
      runDispatch env bookings reminders := by
  constructor
  · unfold handler
    simp only [jsOrStr, strTruthy, hkey]
    cases h : (runDispatch env bookings reminders).error <;> simp [h]
  · unfold handler
    simp only [jsOrStr, strTruthy, hkey]
    cases h : (runDispatch env bookings reminders).error <;> simp [h]

/-- C10 witness: the theorem applied to the base environment (no key
configured) over an empty store; the handler reaches the dispatch and
answers 200. -/
theorem claim_C10_witness :
    (handler envBase [] []
        { authorization := none, apiKeyQuery := none, method := "POST" }).1 ≠
      some { status := 401, message := some "Not authenticated", notificationsSent := none } :=
  (claim_C10_no_key_no_auth envBase [] [] rfl).1

/-- C5: a booking whose organizer row is missing, or whose organizer lacks
both a name and a username, or lacks a timezone, is skipped by the
per-booking procedure with only a logged diagnostic: the sender is never
invoked (no email), no ledger record is written, the booking is not counted,
and the pass continues alive (error stays `none`). -/
theorem claim_C5_validation_skip (env : Env) (interval : Int) (s : RunState)
    (b : Booking) (halive : s.error = none)
    (hmiss : b.user = none ∨ ∃ u, b.user = some u ∧
      ((u.name = none ∧ u.username = none) ∨ u.timeZone = none)) :
    processBooking env interval s b = { s with logs := s.logs ++ [b.id] } := by
  have hs : s.error.isSome = false := by rw [halive]; rfl
  rcases hmiss with h | ⟨u, hu, hcase⟩
  · simp [processBooking, hs, h]
  · rcases hcase with ⟨hn, hun⟩ | htz
    · simp [processBooking, hs, hu, displayName, jsOrStr, strTruthy, hn, hun]
    · simp [processBooking, hs, hu, htz, strTruthy]

/-- C5 witness: the theorem applied to a booking with no organizer row. -/
theorem claim_C5_witness :
    processBooking envBase 2880 (initRunState []) bNoUser =
      { initRunState [] with logs := [3] } :=
  claim_C5_validation_skip envBase 2880 (initRunState []) bNoUser rfl (Or.inl rfl)

/-- C1: amended. A missing-organizer failure is indeed caught and logged,
with the booking not counted, no record written, and the loop continuing;
but a notification send failure is not caught: while it writes no ledger
record and is not counted, it raises an exception, and once an exception is
pending every later per-booking step and every later threshold pass is dead
code — the whole run aborts. -/
theorem claim_C1_amended_only_validation_contained (env : Env)
    (bookings : List Booking) (interval : Int) (s : RunState) (b : Booking)
    (halive : s.error = none) :
    (validOrganizer b = false →
      processBooking env interval s b = { s with logs := s.logs ++ [b.id] }) ∧
    (validOrganizer b = true → env.sendFailIds.contains b.id = true →
      processBooking env interval s b =
        { s with error := some (RunError.sendFailed b.id) }) ∧
    (∀ s' : RunState, s'.error.isSome = true →
      runInterval env bookings interval s' = s' ∧
      ∀ b' : Booking, processBooking env interval s' b' = s') := by
  have hs : s.error.isSome = false := by rw [halive]; rfl
  refine ⟨?_, ?_, ?_⟩
  · intro hv
    cases hu : b.user with
    | none => simp [processBooking, hs, hu]
    | some u =>
      have hv' : (strTruthy (displayName u) && strTruthy u.timeZone) = false := by
        rw [validOrganizer, hu] at hv
        exact hv
      simp [processBooking, hs, hu, hv']
  · intro hv hsf
    cases hu : b.user with
    | none => rw [validOrganizer, hu] at hv; exact absurd hv (by simp)
    | some u =>
      have hv' : (strTruthy (displayName u) && strTruthy u.timeZone) = true := by
        rw [validOrganizer, hu] at hv
        exact hv
      have hsf' : b.id ∈ env.sendFailIds := by simpa using hsf
      simp [processBooking, hs, hu, hv', hsf']
  · intro s' hs'
    exact ⟨by simp [runInterval, hs'], fun b' => by simp [processBooking, hs']⟩

/-- C1 witness: the amended theorem applied to booking 1 under the
send-failing environment: the step only sets the pending exception. -/
theorem claim_C1_witness :
    processBooking envSendFail 2880 (initRunState []) bOld =
      { initRunState [] with error := some (RunError.sendFailed 1) } :=
  (claim_C1_amended_only_validation_contained envSendFail [] 2880
      (initRunState []) bOld rfl).2.1 (by decide) (by decide)

/-- C2: a booking in the fetched pending set of a threshold pass is excluded
from the candidate set if and only if some reminder record of kind
`PENDING_BOOKING_CONFIRMATION` references it with `elapsedMinutes` at least
the threshold. -/
theorem claim_C2_exclusion_iff (bookings : List Booking) (rems : List ReminderMail)
    (now interval : Int) (b : Booking)
    (hb : b ∈ fetchPending bookings now interval) :
    (b ∉ candidateBookings bookings rems now interval ↔
      ∃ r ∈ rems, r.reminderType = ReminderType.PENDING_BOOKING_CONFIRMATION ∧
        r.referenceId = b.id ∧ interval ≤ r.elapsedMinutes) := by
  have hid : b.id ∈ (fetchPending bookings now interval).map Booking.id :=
    List.mem_map_of_mem Booking.id hb
  constructor
  · intro hnot
    have hpred : ¬ ((fun c => !((fetchReminders rems
        ((fetchPending bookings now interval).map Booking.id) interval).any
          fun r => r.referenceId == c.id)) b = true) := by
      intro hp
      exact hnot (List.mem_filter.mpr ⟨hb, hp⟩)
    rw [Bool.not_eq_true, Bool.not_eq_false'] at hpred
    rcases List.any_eq_true.mp hpred with ⟨r, hrmem, hrid⟩
    rcases List.mem_filter.mp hrmem with ⟨hrrems, hconds⟩
    rw [Bool.and_eq_true, Bool.and_eq_true] at hconds
    obtain ⟨⟨htype, _⟩, hle⟩ := hconds
    exact ⟨r, hrrems, beq_iff_eq.mp htype, beq_iff_eq.mp hrid,
      of_decide_eq_true hle⟩
  · rintro ⟨r, hrrems, htype, hrid, hle⟩ hmem
    rcases List.mem_filter.mp hmem with ⟨_, hp⟩
    rw [Bool.not_eq_true'] at hp
    have hrmem : r ∈ fetchReminders rems
        ((fetchPending bookings now interval).map Booking.id) interval := by
      apply List.mem_filter.mpr
      refine ⟨hrrems, ?_⟩
      have hcont : ((fetchPending bookings now interval).map Booking.id).contains
          r.referenceId = true := by
        rw [hrid]
        exact List.elem_eq_true_of_mem hid
      rw [htype, hcont]
      simp [hle]
    have : ((fetchReminders rems
        ((fetchPending bookings now interval).map Booking.id) interval).any
          fun r => r.referenceId == b.id) = true :=
      List.any_eq_true.mpr ⟨r, hrmem, beq_iff_eq.mpr hrid⟩
    rw [hp] at this
    exact Bool.false_ne_true this

/-- C2 witness: a record at elapsed 2880 suppresses the booking at the 1440
and 180 passes, while a record only at 180 does not suppress the 1440 pass. -/
theorem claim_C2_witness :
    bOld ∉ candidateBookings [bOld] [mkReminder 1 2880] 2880 1440 ∧
    bOld ∉ candidateBookings [bOld] [mkReminder 1 2880] 2880 180 ∧
    bOld ∈ candidateBookings [bOld] [mkReminder 1 180] 2880 1440 := by
  refine ⟨?_, ?_, ?_⟩
  · exact (claim_C2_exclusion_iff [bOld] [mkReminder 1 2880] 2880 1440 bOld
      (by decide)).mpr ⟨mkReminder 1 2880, by decide, by decide, by decide, by decide⟩
  · exact (claim_C2_exclusion_iff [bOld] [mkReminder 1 2880] 2880 180 bOld
      (by decide)).mpr ⟨mkReminder 1 2880, by decide, by decide, by decide, by decide⟩
  · by_contra hnot
    have hex := (claim_C2_exclusion_iff [bOld] [mkReminder 1 180] 2880 1440 bOld
      (by decide)).mp hnot
    revert hex
    decide

/-- Every character the fixed-width decimal renderer emits is a digit. -/
theorem digitChar_isDigit (n : Nat) : (digitChar n).isDigit = true := by
  have h : n % 10 < 10 := Nat.mod_lt _ (by norm_num)
  unfold digitChar
  set k := n % 10 with hk
  interval_cases k <;> decide

/-- The rendering of any instant has the ISO-8601 shape. -/
theorem isISO8601_toISOString (d : DateTime) : isISO8601 d.toISOString = true := by
  show isISO8601Chars
      [digitChar (d.year / 1000), digitChar (d.year / 100), digitChar (d.year / 10),
       digitChar d.year, '-', digitChar (d.month / 10), digitChar d.month, '-',
       digitChar (d.day / 10), digitChar d.day, 'T', digitChar (d.hour / 10),
       digitChar d.hour, ':', digitChar (d.minute / 10), digitChar d.minute, ':',
       digitChar (d.second / 10), digitChar d.second, '.', digitChar (d.ms / 100),
       digitChar (d.ms / 10), digitChar d.ms, 'Z'] = true
  simp [isISO8601Chars, digitChar_isDigit]

/-- C8: shape of the composed payload for a valid candidate booking: `type`
and `title` both carry the booking title; `description` is omitted when
absent; `customInputs` is present only when the stored value is a key/value
object (and is then that object); `location` is the empty string when
absent; the start and end fields are the ISO-8601 renderings of the stored
instants; organizer and attendee locales default to "en" when unset; the
destination calendar is the booking's own override when present, else the
organizer's. -/
theorem claim_C8_payload_shape (b : Booking) (u : UserRec) (name tz : String) :
    (buildEvt b u name tz).type = b.title ∧
    (buildEvt b u name tz).title = b.title ∧
    (b.description = none → (buildEvt b u name tz).description = none) ∧
    (∀ j, (buildEvt b u name tz).customInputs = some j →
      ∃ fields, b.customInputs = some (JsonVal.obj fields) ∧ j = JsonVal.obj fields) ∧
    (b.location = none → (buildEvt b u name tz).location = "") ∧
    (buildEvt b u name tz).startTime = b.startTime.toISOString ∧
    isISO8601 (buildEvt b u name tz).startTime = true ∧
    (buildEvt b u name tz).endTime = b.endTime.toISOString ∧
    isISO8601 (buildEvt b u name tz).endTime = true ∧
    (u.locale = none → (buildEvt b u name tz).organizer.language.locale = "en") ∧
    (buildEvt b u name tz).attendees = b.attendees.map attendeeBlock ∧
    (∀ a : Attendee, a.locale = none → (attendeeBlock a).language.locale = "en") ∧
    (∀ d, b.destinationCalendar = some d →
      (buildEvt b u name tz).destinationCalendar = some d) ∧
    (b.destinationCalendar = none →
      (buildEvt b u name tz).destinationCalendar = u.destinationCalendar) := by
  refine ⟨rfl, rfl, ?_, ?_, ?_, rfl, isISO8601_toISOString b.startTime, rfl,
    isISO8601_toISOString b.endTime, ?_, rfl, ?_, ?_, ?_⟩
  · intro h
    simp [buildEvt, jsOrUndefined, h, strTruthy]
  · intro j hj
    simp only [buildEvt] at hj
    rcases hcu : b.customInputs with _ | jv
    · rw [hcu] at hj
      simp [isPrismaObjOrUndefined] at hj
    · rcases jv with p | elems | fields
      · rw [hcu] at hj
        simp [isPrismaObjOrUndefined] at hj
      · rw [hcu] at hj
        simp [isPrismaObjOrUndefined] at hj
      · rw [hcu] at hj
        simp only [isPrismaObjOrUndefined, Option.some.injEq] at hj
        exact ⟨fields, rfl, hj.symm⟩
  · intro h
    simp [buildEvt, h]
  · intro h
    simp [buildEvt, h]
  · intro a h
    simp [attendeeBlock, h]
  · intro d h
    simp [buildEvt, jsOrObj, h]
  · intro h
    simp [buildEvt, jsOrObj, h]

/-- C8 witness: the theorem applied to the fixture booking; the composed
type field carries the title and the rendered start instant has ISO shape. -/
theorem claim_C8_witness :
    (buildEvt bOld uJane "Jane" "UTC").type = "Meeting" ∧
    isISO8601 (buildEvt bOld uJane "Jane" "UTC").startTime = true :=
  ⟨(claim_C8_payload_shape bOld uJane "Jane" "UTC").1,
    (claim_C8_payload_shape bOld uJane "Jane" "UTC").2.2.2.2.2.2.1⟩

/-- Reading every slot of a list by index over `List.range` yields the list
itself (wrapped in `some`). -/
theorem list_range_map_get {α : Type} (l : List α) :
    ((List.range l.length).map fun i => l.get? i) = l.map some := by
  induction l with
  | nil => rfl
  | cons x xs ih =>
    rw [List.length_cons, List.range_succ_eq_map, List.map_cons, List.map_map]
    have hcomp : ((fun i => (x :: xs).get? i) ∘ Nat.succ) = fun i => xs.get? i := rfl
    rw [hcomp, ih, List.map_cons]
    rfl

/-- Searching a completion trace for index `i` finds the value of task `i`,
whatever order the tasks completed in. -/
theorem find_completionTrace {α : Type} (order : List Nat) (tasks : List α)
    (i : Nat) (hi : i ∈ order) (hall : ∀ j ∈ order, j < tasks.length) :
    ((completionTrace order tasks).find? fun p => p.1 == i) =
      (tasks.get? i).map fun t => (i, t) := by
  induction order with
  | nil => cases hi
  | cons j rest ih =>
    have hj : j < tasks.length := hall j (List.mem_cons_self j rest)
    have htj : tasks.get? j = some (tasks.get ⟨j, hj⟩) := List.get?_eq_get hj
    have hfa : ((tasks.get? j).map fun t => (j, t)) = some (j, tasks.get ⟨j, hj⟩) := by
      rw [htj]; rfl
    show ((List.filterMap (fun k => (tasks.get? k).map fun t => (k, t))
        (j :: rest)).find? fun p => p.1 == i) = _
    rw [List.filterMap_cons_some (f := fun k => (tasks.get? k).map fun t => (k, t)) hfa]
    by_cases hji : j = i
    · subst hji
      rw [List.find?_cons_of_pos _ (by simp), htj]
      rfl
    · rw [List.find?_cons_of_neg _ (by simp [hji])]
      have hirest : i ∈ rest := by
        rcases List.mem_cons.mp hi with h | h
        · exact absurd h.symm hji
        · exact h
      exact ih hirest fun k hk => hall k (List.mem_cons_of_mem _ hk)

/-- `Promise.all` over any completion order that resolves every task yields
the task results in task order. -/
theorem promiseAllFanIn_trace {α : Type} (tasks : List α) (order : List Nat)
    (hperm : order.Perm (List.range tasks.length)) :
    promiseAllFanIn tasks.length (completionTrace order tasks) = some tasks := by
  have hmem : ∀ i, i ∈ List.range tasks.length → i ∈ order := fun i h =>
    hperm.mem_iff.mpr h
  have hall : ∀ j ∈ order, j < tasks.length := fun j hj =>
    List.mem_range.mp (hperm.mem_iff.mp hj)
  unfold promiseAllFanIn
  have hslots : ((List.range tasks.length).map fun i =>
      ((completionTrace order tasks).find? fun p => p.1 == i).map Prod.snd) =
      (List.range tasks.length).map fun i => tasks.get? i := by
    apply List.map_congr_left
    intro i hi
    rw [find_completionTrace order tasks i (hmem i hi) hall]
    cases tasks.get? i <;> rfl
  rw [hslots, list_range_map_get]
  have hsome : (tasks.map some).all Option.isSome = true := by
    simp [List.all_eq_true]
  simp only [hsome, if_true]
  simp

/-- C7: the attendee blocks of the composed payload appear in exactly the
source attendee order — `Promise.all` over the per-attendee translator
resolutions returns the blocks in task order for every completion order of
the concurrent resolutions, and resolves (to `some`) only with every block
present; the composed event's attendee list is exactly the in-order map of
the attendee-block builder over the source sequence. -/
theorem claim_C7_attendee_order (b : Booking) (u : UserRec) (name tz : String)
    (order : List Nat)
    (hperm : order.Perm (List.range (b.attendees.map attendeeBlock).length)) :
    promiseAllFanIn (b.attendees.map attendeeBlock).length
        (completionTrace order (b.attendees.map attendeeBlock)) =
      some (b.attendees.map attendeeBlock) ∧
    (buildEvt b u name tz).attendees = b.attendees.map attendeeBlock :=
  ⟨promiseAllFanIn_trace (b.attendees.map attendeeBlock) order hperm, rfl⟩

/-- A booking with attendee locales ["en", "fr", "es"]. -/
def bAtt : Booking :=
  { bOld with
    id := 4
    uid := "uid4"
    attendees :=
      [{ name := "Ann", email := "ann@example.com", timeZone := "UTC", locale := some "en" },
       { name := "Bob", email := "bob@example.com", timeZone := "UTC", locale := some "fr" },
       { name := "Eva", email := "eva@example.com", timeZone := "UTC", locale := some "es" }] }

/-- C7 witness: the theorem applied to the ["en", "fr", "es"] attendee list
with completion order [2, 0, 1]. -/
theorem claim_C7_witness :
    promiseAllFanIn (bAtt.attendees.map attendeeBlock).length
        (completionTrace [2, 0, 1] (bAtt.attendees.map attendeeBlock)) =
      some (bAtt.attendees.map attendeeBlock) :=
  (claim_C7_attendee_order bAtt uJane "Jane" "UTC" [2, 0, 1] (by decide)).1

/-- Once an exception is pending, the per-booking step does nothing. -/
theorem processBooking_dead (env : Env) (interval : Int) (s : RunState)
    (b : Booking) (h : s.error.isSome = true) :
    processBooking env interval s b = s := by
  simp [processBooking, h]

/-- Once an exception is pending, a threshold pass does nothing. -/
theorem runInterval_dead (env : Env) (bookings : List Booking) (interval : Int)
    (s : RunState) (h : s.error.isSome = true) :
    runInterval env bookings interval s = s := by
  simp [runInterval, h]

/-- Branch characterization of the per-booking step on a live state: the
booking is either invalid (logged, skipped), rejected at send (exception, no
email, no record), rejected at the ledger insert (email out, exception, no
record, not counted), or fully processed (email out, record written,
counted). -/
theorem processBooking_spec (env : Env) (interval : Int) (s : RunState)
    (b : Booking) (halive : s.error = none) :
    (validOrganizer b = false ∧
      processBooking env interval s b = { s with logs := s.logs ++ [b.id] }) ∨
    (validOrganizer b = true ∧ env.sendFailIds.contains b.id = true ∧
      processBooking env interval s b =
        { s with error := some (RunError.sendFailed b.id) }) ∨
    (validOrganizer b = true ∧ env.sendFailIds.contains b.id = false ∧
      env.ledgerFailIds.contains b.id = true ∧
      ∃ evt, processBooking env interval s b =
        { s with emails := s.emails ++ [evt], sentIds := s.sentIds ++ [b.id],
                 error := some (RunError.ledgerFailed b.id) }) ∨
    (validOrganizer b = true ∧ env.sendFailIds.contains b.id = false ∧
      env.ledgerFailIds.contains b.id = false ∧
      ∃ evt, processBooking env interval s b =
        { s with emails := s.emails ++ [evt], sentIds := s.sentIds ++ [b.id],
                 reminders := s.reminders ++ [mkReminder b.id interval],
                 notificationsSent := s.notificationsSent + 1 }) := by
  have hs : s.error.isSome = false := by rw [halive]; rfl
  cases hu : b.user with
  | none =>
    left
    exact ⟨by simp [validOrganizer, hu], by simp [processBooking, hs, hu]⟩
  | some u =>
    by_cases hv : (strTruthy (displayName u) && strTruthy u.timeZone) = true
    · have hvb : validOrganizer b = true := by rw [validOrganizer, hu]; exact hv
      by_cases hsf : env.sendFailIds.contains b.id = true
      · right; left
        have hsf' : b.id ∈ env.sendFailIds := by simpa using hsf
        exact ⟨hvb, hsf, by simp [processBooking, hs, hu, hv, hsf']⟩
      · have hsf0 : env.sendFailIds.contains b.id = false := by
          cases h : env.sendFailIds.contains b.id
          · rfl
          · exact absurd h hsf
        have hsf' : b.id ∉ env.sendFailIds := by
          intro hmem
          have helem : env.sendFailIds.elem b.id = true := List.elem_eq_true_of_mem hmem
          have hce : env.sendFailIds.contains b.id = env.sendFailIds.elem b.id := rfl
          rw [hce, helem] at hsf0
          simp at hsf0
        by_cases hlf : env.ledgerFailIds.contains b.id = true
        · right; right; left
          have hlf' : b.id ∈ env.ledgerFailIds := by simpa using hlf
          exact ⟨hvb, hsf0, hlf,
            ⟨buildEvt b u ((displayName u).getD "") (u.timeZone.getD ""),
              by simp [processBooking, hs, hu, hv, hsf', hlf']⟩⟩
        · right; right; right
          have hlf0 : env.ledgerFailIds.contains b.id = false := by
            cases h : env.ledgerFailIds.contains b.id
            · rfl
            · exact absurd h hlf
          have hlf' : b.id ∉ env.ledgerFailIds := by
            intro hmem
            have helem : env.ledgerFailIds.elem b.id = true := List.elem_eq_true_of_mem hmem
            have hce : env.ledgerFailIds.contains b.id = env.ledgerFailIds.elem b.id := rfl
            rw [hce, helem] at hlf0
            simp at hlf0
          exact ⟨hvb, hsf0, hlf0,
            ⟨buildEvt b u ((displayName u).getD "") (u.timeZone.getD ""),
              by simp [processBooking, hs, hu, hv, hsf', hlf']⟩⟩
    · left
      have hv0 : (strTruthy (displayName u) && strTruthy u.timeZone) = false := by
        cases h : (strTruthy (displayName u) && strTruthy u.timeZone)
        · rfl
        · exact absurd h hv
      exact ⟨by rw [validOrganizer, hu]; exact hv0,
        by simp [processBooking, hs, hu, hv0]⟩

/-- Once an exception is pending, the whole remaining booking loop does
nothing. -/
theorem foldl_processBooking_dead (env : Env) (interval : Int)
    (cs : List Booking) (s : RunState) (h : s.error.isSome = true) :
    cs.foldl (processBooking env interval) s = s := by
  induction cs with
  | nil => rfl
  | cons c cs ih =>
    rw [List.foldl_cons, processBooking_dead env interval s c h]
    exact ih

/-- The per-booking step never removes a ledger record. -/
theorem processBooking_reminders_mono (env : Env) (interval : Int)
    (s : RunState) (b : Booking) (r : ReminderMail) (hr : r ∈ s.reminders) :
    r ∈ (processBooking env interval s b).reminders := by
  by_cases herr : s.error.isSome = true
  · rw [processBooking_dead env interval s b herr]; exact hr
  · have halive : s.error = none := by
      cases h : s.error
      · rfl
      · rw [h] at herr; exact absurd rfl herr
    rcases processBooking_spec env interval s b halive with
      ⟨_, heq⟩ | ⟨_, _, heq⟩ | ⟨_, _, _, evt, heq⟩ | ⟨_, _, _, evt, heq⟩ <;>
      rw [heq]
    · exact hr
    · exact hr
    · exact hr
    · exact List.mem_append_left _ hr

/-- The booking loop never removes a ledger record. -/
theorem foldl_reminders_mono (env : Env) (interval : Int) (cs : List Booking)
    (s : RunState) (r : ReminderMail) (hr : r ∈ s.reminders) :
    r ∈ (cs.foldl (processBooking env interval) s).reminders := by
  induction cs generalizing s with
  | nil => exact hr
  | cons c cs ih =>
    rw [List.foldl_cons]
    exact ih _ (processBooking_reminders_mono env interval s c r hr)

/-- A threshold pass never removes a ledger record. -/
theorem runInterval_reminders_mono (env : Env) (bookings : List Booking)
    (interval : Int) (s : RunState) (r : ReminderMail) (hr : r ∈ s.reminders) :
    r ∈ (runInterval env bookings interval s).reminders := by
  by_cases herr : s.error.isSome = true
  · rw [runInterval_dead env bookings interval s herr]; exact hr
  · have h0 : (if s.error.isSome = true then s
        else (candidateBookings bookings s.reminders env.now interval).foldl
          (processBooking env interval) s) =
        (candidateBookings bookings s.reminders env.now interval).foldl
          (processBooking env interval) s := if_neg herr
    rw [runInterval, h0]
    exact foldl_reminders_mono env interval _ s r hr

/-- The per-booking step either leaves the dispatched-ids list alone or
appends exactly its own booking id. -/
theorem processBooking_sentIds (env : Env) (interval : Int) (s : RunState)
    (b : Booking) :
    (processBooking env interval s b).sentIds = s.sentIds ∨
    (processBooking env interval s b).sentIds = s.sentIds ++ [b.id] := by
  by_cases herr : s.error.isSome = true
  · left; rw [processBooking_dead env interval s b herr]
  · have halive : s.error = none := by
      cases h : s.error
      · rfl
      · rw [h] at herr; exact absurd rfl herr
    rcases processBooking_spec env interval s b halive with
      ⟨_, heq⟩ | ⟨_, _, heq⟩ | ⟨_, _, _, evt, heq⟩ | ⟨_, _, _, evt, heq⟩ <;>
      rw [heq]
    · exact Or.inl rfl
    · exact Or.inl rfl
    · exact Or.inr rfl
    · exact Or.inr rfl

/-- The booking loop appends to the dispatched-ids list a selection (in
order) of the ids of the bookings it was given. -/
theorem foldl_sentIds_sublist (env : Env) (interval : Int) (cs : List Booking)
    (s : RunState) :
    ∃ t, (cs.foldl (processBooking env interval) s).sentIds = s.sentIds ++ t ∧
      t.Sublist (cs.map Booking.id) := by
  induction cs generalizing s with
  | nil => exact ⟨[], by simp, by simp⟩
  | cons c cs ih =>
    rw [List.foldl_cons]
    obtain ⟨t, ht, hsub⟩ := ih (processBooking env interval s c)
    rcases processBooking_sentIds env interval s c with h | h
    · rw [h] at ht
      exact ⟨t, ht, hsub.trans (List.sublist_cons_self _ _)⟩
    · rw [h, List.append_assoc] at ht
      exact ⟨c.id :: t, by simpa using ht, by simpa using hsub.cons₂ c.id⟩

/-- The candidate list of a pass is a sublist of the booking table. -/
theorem candidateBookings_sublist (bookings : List Booking)
    (reminders : List ReminderMail) (now interval : Int) :
    (candidateBookings bookings reminders now interval).Sublist bookings := by
  unfold candidateBookings fetchPending
  exact (List.filter_sublist _).trans (List.filter_sublist _)

/-- With pairwise-distinct booking ids, one pass dispatches to a given id at
most once. -/
theorem runInterval_count_le (env : Env) (bookings : List Booking)
    (interval : Int) (s : RunState) (idn : Nat)
    (hnodup : (bookings.map Booking.id).Nodup) :
    (runInterval env bookings interval s).sentIds.count idn ≤
      s.sentIds.count idn + 1 := by
  by_cases herr : s.error.isSome = true
  · rw [runInterval_dead env bookings interval s herr]; omega
  · rw [runInterval, if_neg herr]
    obtain ⟨t, ht, hsub⟩ :=
      foldl_sentIds_sublist env interval
        (candidateBookings bookings s.reminders env.now interval) s
    rw [ht, List.count_append]
    have h1 : t.count idn ≤
        ((candidateBookings bookings s.reminders env.now interval).map
          Booking.id).count idn := hsub.count_le idn
    have h2 : ((candidateBookings bookings s.reminders env.now interval).map
        Booking.id).count idn ≤ (bookings.map Booking.id).count idn :=
      ((candidateBookings_sublist bookings s.reminders env.now interval).map
        Booking.id).count_le idn
    have h3 : (bookings.map Booking.id).count idn ≤ 1 :=
      List.nodup_iff_count_le_one.mp hnodup idn
    omega

/-- A booking id covered by a qualifying ledger record never appears among a
pass's candidates: the candidate filter removes every booking some fetched
record references. -/
theorem candidates_id_ne_of_record (bookings : List Booking)
    (reminders : List ReminderMail) (now interval : Int) (idn : Nat)
    (r : ReminderMail) (hr : r ∈ reminders)
    (ht : r.reminderType = ReminderType.PENDING_BOOKING_CONFIRMATION)
    (hid : r.referenceId = idn) (hle : interval ≤ r.elapsedMinutes) :
    ∀ c ∈ candidateBookings bookings reminders now interval, c.id ≠ idn := by
  intro c hc hcid
  rcases List.mem_filter.mp hc with ⟨hcf, hp⟩
  rw [Bool.not_eq_true'] at hp
  have hrmem : r ∈ fetchReminders reminders
      ((fetchPending bookings now interval).map Booking.id) interval := by
    apply List.mem_filter.mpr
    refine ⟨hr, ?_⟩
    have hcont : ((fetchPending bookings now interval).map Booking.id).contains
        r.referenceId = true := by
      rw [hid, ← hcid]
      exact List.elem_eq_true_of_mem (List.mem_map_of_mem Booking.id hcf)
    rw [ht, hcont]
    simp [hle]
  have hany : ((fetchReminders reminders
      ((fetchPending bookings now interval).map Booking.id) interval).any
        fun r => r.referenceId == c.id) = true :=
    List.any_eq_true.mpr ⟨r, hrmem, by rw [hid, hcid]; simp⟩
  rw [hp] at hany
  exact Bool.false_ne_true hany

/-- A qualifying ledger record freezes the dispatched count for its booking
id across a pass at or below its elapsed value. -/
theorem runInterval_no_resend (env : Env) (bookings : List Booking)
    (interval : Int) (s : RunState) (idn : Nat)
    (hrec : ∃ r ∈ s.reminders,
      r.reminderType = ReminderType.PENDING_BOOKING_CONFIRMATION ∧
      r.referenceId = idn ∧ interval ≤ r.elapsedMinutes) :
    (runInterval env bookings interval s).sentIds.count idn =
      s.sentIds.count idn := by
  by_cases herr : s.error.isSome = true
  · rw [runInterval_dead env bookings interval s herr]
  · rw [runInterval, if_neg herr]
    obtain ⟨t, ht, hsub⟩ :=
      foldl_sentIds_sublist env interval
        (candidateBookings bookings s.reminders env.now interval) s
    rw [ht, List.count_append]
    obtain ⟨r, hr, hrt, hrid, hrle⟩ := hrec
    have hne := candidates_id_ne_of_record bookings s.reminders env.now interval
      idn r hr hrt hrid hrle
    have hnotmem : idn ∉ (candidateBookings bookings s.reminders env.now
        interval).map Booking.id := by
      intro hmem
      rcases List.mem_map.mp hmem with ⟨c, hc, hcid⟩
      exact hne c hc hcid
    have ht0 : t.count idn = 0 := by
      rw [List.count_eq_zero]
      intro hmem
      exact hnotmem (hsub.mem hmem)
    omega

/-- If the booking loop dispatched anything new for an id, then either the
run now carries a pending exception, or a ledger record for that id at this
pass's interval was written and survives to the end of the loop. -/
theorem foldl_growth_record (env : Env) (interval : Int) (cs : List Booking)
    (s : RunState) (idn : Nat)
    (hne : (cs.foldl (processBooking env interval) s).sentIds.count idn ≠
      s.sentIds.count idn) :
    (cs.foldl (processBooking env interval) s).error.isSome = true ∨
      mkReminder idn interval ∈
        (cs.foldl (processBooking env interval) s).reminders := by
  induction cs generalizing s with
  | nil => simp at hne
  | cons c cs ih =>
    rw [List.foldl_cons] at hne ⊢
    by_cases heq : (processBooking env interval s c).sentIds.count idn =
        s.sentIds.count idn
    · apply ih
      rw [heq]
      exact hne
    · by_cases herr : s.error.isSome = true
      · rw [processBooking_dead env interval s c herr] at heq
        exact absurd rfl heq
      · have halive : s.error = none := by
          cases h : s.error
          · rfl
          · rw [h] at herr; exact absurd rfl herr
        rcases processBooking_spec env interval s c halive with
          ⟨_, h⟩ | ⟨_, _, h⟩ | ⟨_, _, _, evt, h⟩ | ⟨_, _, _, evt, h⟩
        · rw [h] at heq; exact absurd rfl heq
        · rw [h] at heq; exact absurd rfl heq
        · left
          rw [h, foldl_processBooking_dead env interval cs _ (by simp)]
          simp
        · right
          have hcid : c.id = idn := by
            by_contra hcid
            apply heq
            rw [h]
            show (s.sentIds ++ [c.id]).count idn = s.sentIds.count idn
            rw [List.count_append]
            have : ([c.id].count idn) = 0 := by
              rw [List.count_eq_zero]
              intro hmem
              rw [List.mem_singleton] at hmem
              exact hcid (hmem ▸ rfl)
            omega
          apply foldl_reminders_mono
          rw [h]
          show mkReminder idn interval ∈
            s.reminders ++ [mkReminder c.id interval]
          rw [hcid]
          exact List.mem_append_right _ (List.mem_singleton_self _)

/-- Pass-level version of `foldl_growth_record`. -/
theorem runInterval_growth_record (env : Env) (bookings : List Booking)
    (interval : Int) (s : RunState) (idn : Nat)
    (hne : (runInterval env bookings interval s).sentIds.count idn ≠
      s.sentIds.count idn) :
    (runInterval env bookings interval s).error.isSome = true ∨
      mkReminder idn interval ∈ (runInterval env bookings interval s).reminders := by
  by_cases herr : s.error.isSome = true
  · rw [runInterval_dead env bookings interval s herr] at hne
    exact absurd rfl hne
  · rw [runInterval, if_neg herr] at hne ⊢
    exact foldl_growth_record env interval _ s idn hne

/-- C9: within a single run over the descending threshold list, every
booking id is dispatched at most one notification, however many thresholds
the booking qualifies for: the ledger record written at the first (largest)
qualifying threshold satisfies the `elapsedMinutes >= interval` filter of
every later, smaller-threshold pass of the same run. Booking ids are
pairwise distinct (they are primary keys). -/
theorem claim_C9_at_most_once_per_run (env : Env) (bookings : List Booking)
    (reminders : List ReminderMail) (idn : Nat)
    (hnodup : (bookings.map Booking.id).Nodup) :
    (runDispatch env bookings reminders).sentIds.count idn ≤ 1 := by
  have hrun : runDispatch env bookings reminders =
      runInterval env bookings (3 * 60)
        (runInterval env bookings (24 * 60)
          (runInterval env bookings (48 * 60) (initRunState reminders))) := rfl
  rw [hrun]
  set s0 := initRunState reminders with hs0
  set s1 := runInterval env bookings (48 * 60) s0 with hs1
  set s2 := runInterval env bookings (24 * 60) s1 with hs2
  have h0 : s0.sentIds.count idn = 0 := by simp [hs0, initRunState]
  have hle1 := runInterval_count_le env bookings (48 * 60) s0 idn hnodup
  rw [← hs1] at hle1
  have hle2 := runInterval_count_le env bookings (24 * 60) s1 idn hnodup
  rw [← hs2] at hle2
  have hle3 := runInterval_count_le env bookings (3 * 60) s2 idn hnodup
  by_cases h1 : s1.sentIds.count idn = 0
  · by_cases h2 : s2.sentIds.count idn = 0
    · omega
    · have hne2 : s2.sentIds.count idn ≠ s1.sentIds.count idn := by omega
      have hg2 := runInterval_growth_record env bookings (24 * 60) s1 idn
        (hs2 ▸ hne2)
      rw [← hs2] at hg2
      rcases hg2 with herr2 | hrec2
      · rw [runInterval_dead env bookings (3 * 60) s2 herr2]
        omega
      · have hfreeze := runInterval_no_resend env bookings (3 * 60) s2 idn
          ⟨mkReminder idn (24 * 60), hrec2, rfl, rfl, by norm_num [mkReminder]⟩
        omega
  · have hne1 : s1.sentIds.count idn ≠ s0.sentIds.count idn := by omega
    have hg1 := runInterval_growth_record env bookings (48 * 60) s0 idn
      (hs1 ▸ hne1)
    rw [← hs1] at hg1
    rcases hg1 with herr1 | hrec1
    · have e2 : s2 = s1 := by
        rw [hs2, runInterval_dead env bookings (24 * 60) s1 herr1]
      have herr2 : s2.error.isSome = true := by rw [e2]; exact herr1
      rw [runInterval_dead env bookings (3 * 60) s2 herr2, e2]
      omega
    · have hc2 : s2.sentIds.count idn = s1.sentIds.count idn := by
        rw [hs2]
        exact runInterval_no_resend env bookings (24 * 60) s1 idn
          ⟨mkReminder idn (48 * 60), hrec1, rfl, rfl, by norm_num [mkReminder]⟩
      have hrec2 : mkReminder idn (48 * 60) ∈ s2.reminders := by
        rw [hs2]
        exact runInterval_reminders_mono env bookings (24 * 60) s1 _ hrec1
      have hc3 := runInterval_no_resend env bookings (3 * 60) s2 idn
        ⟨mkReminder idn (48 * 60), hrec2, rfl, rfl, by norm_num [mkReminder]⟩
      omega

/-- C9 witness: the theorem applied to a two-booking table over the base
environment. -/
theorem claim_C9_witness :
    (runDispatch envBase [bOld, bOld2] []).sentIds.count 1 ≤ 1 :=
  claim_C9_at_most_once_per_run envBase [bOld, bOld2] [] 1 (by decide)

/-- On a live state, a booking failing organizer validation only logs. -/
theorem processBooking_invalid (env : Env) (interval : Int) (s : RunState)
    (b : Booking) (halive : s.error = none) (hv : validOrganizer b = false) :
    processBooking env interval s b = { s with logs := s.logs ++ [b.id] } := by
  rcases processBooking_spec env interval s b halive with
    ⟨_, h⟩ | ⟨hvt, _, _⟩ | ⟨hvt, _, _, _⟩ | ⟨hvt, _, _, _⟩
  · exact h
  all_goals rw [hvt] at hv; simp at hv

/-- A booking loop over only-invalid bookings changes nothing but the log. -/
theorem foldl_invalid_noop (env : Env) (interval : Int) (cs : List Booking)
    (s : RunState) (halive : s.error = none)
    (hcs : ∀ c ∈ cs, validOrganizer c = false) :
    (cs.foldl (processBooking env interval) s).reminders = s.reminders ∧
    (cs.foldl (processBooking env interval) s).notificationsSent =
      s.notificationsSent ∧
    (cs.foldl (processBooking env interval) s).sentIds = s.sentIds ∧
    (cs.foldl (processBooking env interval) s).error = none := by
  induction cs generalizing s with
  | nil => exact ⟨rfl, rfl, rfl, halive⟩
  | cons c cs ih =>
    rw [List.foldl_cons,
      processBooking_invalid env interval s c halive (hcs c (List.mem_cons_self c cs))]
    exact ih { s with logs := s.logs ++ [c.id] } halive
      fun c' hc' => hcs c' (List.mem_cons_of_mem c hc')

/-- A pass whose candidates are all invalid changes nothing but the log. -/
theorem runInterval_invalid_noop (env : Env) (bookings : List Booking)
    (interval : Int) (s : RunState) (halive : s.error = none)
    (hinv : ∀ b ∈ candidateBookings bookings s.reminders env.now interval,
      validOrganizer b = false) :
    (runInterval env bookings interval s).reminders = s.reminders ∧
    (runInterval env bookings interval s).notificationsSent =
      s.notificationsSent ∧
    (runInterval env bookings interval s).sentIds = s.sentIds ∧
    (runInterval env bookings interval s).error = none := by
  have herr : ¬ (s.error.isSome = true) := by rw [halive]; simp
  rw [runInterval, if_neg herr]
  exact foldl_invalid_noop env interval _ s halive hinv

/-- A pass that ends without a pending exception started without one. -/
theorem runInterval_alive_prefix (env : Env) (bookings : List Booking)
    (interval : Int) (s : RunState)
    (h : (runInterval env bookings interval s).error = none) :
    s.error = none := by
  by_cases herr : s.error.isSome = true
  · rw [runInterval_dead env bookings interval s herr] at h
    exact h
  · cases hs : s.error
    · rfl
    · rw [hs] at herr; exact absurd rfl herr

/-- A valid booking among the loop's input that survives to a clean loop end
has its ledger record in the final state. -/
theorem foldl_sent_implies_record (env : Env) (interval : Int)
    (cs : List Booking) (s : RunState) (b : Booking) (hb : b ∈ cs)
    (hv : validOrganizer b = true)
    (hfinal : (cs.foldl (processBooking env interval) s).error = none) :
    mkReminder b.id interval ∈
      (cs.foldl (processBooking env interval) s).reminders := by
  induction cs generalizing s with
  | nil => cases hb
  | cons c cs ih =>
    rw [List.foldl_cons] at hfinal ⊢
    have halive : s.error = none := by
      by_cases hsome : s.error.isSome = true
      · rw [processBooking_dead env interval s c hsome,
          foldl_processBooking_dead env interval cs s hsome] at hfinal
        exact hfinal
      · cases hs : s.error
        · rfl
        · rw [hs] at hsome; exact absurd rfl hsome
    rcases List.mem_cons.mp hb with hbc | hbc
    · subst hbc
      rcases processBooking_spec env interval s b halive with
        ⟨hvf, _⟩ | ⟨_, _, h⟩ | ⟨_, _, _, evt, h⟩ | ⟨_, _, _, evt, h⟩
      · rw [hvf] at hv; simp at hv
      · rw [h, foldl_processBooking_dead env interval cs _ (by simp)] at hfinal
        simp at hfinal
      · rw [h, foldl_processBooking_dead env interval cs _ (by simp)] at hfinal
        simp at hfinal
      · apply foldl_reminders_mono
        rw [h]
        exact List.mem_append_right _ (List.mem_singleton_self _)
    · exact ih (processBooking env interval s c) hbc hfinal

/-- A valid candidate of a pass that ends without a pending exception has
its ledger record written by that pass. -/
theorem runInterval_writes_record (env : Env) (bookings : List Booking)
    (interval : Int) (s : RunState) (b : Booking)
    (hb : b ∈ candidateBookings bookings s.reminders env.now interval)
    (hv : validOrganizer b = true)
    (hfinal : (runInterval env bookings interval s).error = none) :
    mkReminder b.id interval ∈ (runInterval env bookings interval s).reminders := by
  by_cases herr : s.error.isSome = true
  · rw [runInterval_dead env bookings interval s herr] at hfinal
    rw [hfinal] at herr
    simp at herr
  · rw [runInterval, if_neg herr] at hfinal ⊢
    exact foldl_sent_implies_record env interval _ s b hb hv hfinal

/-- Growing the ledger can only shrink a pass's candidate set. -/
theorem candidates_anti (bookings : List Booking)
    (rems rems' : List ReminderMail) (now interval : Int)
    (hsub : ∀ r ∈ rems, r ∈ rems') (b : Booking)
    (hb : b ∈ candidateBookings bookings rems' now interval) :
    b ∈ candidateBookings bookings rems now interval := by
  rcases List.mem_filter.mp hb with ⟨hbf, hp'⟩
  rw [Bool.not_eq_true'] at hp'
  apply List.mem_filter.mpr
  refine ⟨hbf, ?_⟩
  rw [Bool.not_eq_true']
  cases hany : (fetchReminders rems
      ((fetchPending bookings now interval).map Booking.id) interval).any
        fun r => r.referenceId == b.id
  · rfl
  · rcases List.any_eq_true.mp hany with ⟨r, hrmem, hrid⟩
    rcases List.mem_filter.mp hrmem with ⟨hrrems, hconds⟩
    have hrmem' : r ∈ fetchReminders rems'
        ((fetchPending bookings now interval).map Booking.id) interval :=
      List.mem_filter.mpr ⟨hsub r hrrems, hconds⟩
    have : ((fetchReminders rems'
        ((fetchPending bookings now interval).map Booking.id) interval).any
          fun r => r.referenceId == b.id) = true :=
      List.any_eq_true.mpr ⟨r, hrmem', hrid⟩
    rw [hp'] at this
    exact absurd this (by simp)

/-- C4: idempotence of a completed dispatch. If a run completes (no pending
exception), then an immediately repeated run — same clock, same booking
table, the ledger the first run left — dispatches nothing: it returns
`notificationsSent = 0`, sends no email, and leaves the ledger unchanged. -/
theorem claim_C4_second_run_idempotent (env : Env) (bookings : List Booking)
    (reminders : List ReminderMail)
    (hfirst : (runDispatch env bookings reminders).error = none) :
    (runDispatch env bookings
        (runDispatch env bookings reminders).reminders).notificationsSent = 0 ∧
    (runDispatch env bookings
        (runDispatch env bookings reminders).reminders).sentIds = [] ∧
    (runDispatch env bookings
        (runDispatch env bookings reminders).reminders).reminders =
      (runDispatch env bookings reminders).reminders := by
  have hrun : runDispatch env bookings reminders =
      runInterval env bookings (3 * 60)
        (runInterval env bookings (24 * 60)
          (runInterval env bookings (48 * 60) (initRunState reminders))) := rfl
  rw [hrun] at hfirst ⊢
  set s0 := initRunState reminders with hs0
  set s1 := runInterval env bookings (48 * 60) s0 with hs1
  set s2 := runInterval env bookings (24 * 60) s1 with hs2
  set s3 := runInterval env bookings (3 * 60) s2 with hs3
  have ha2 : s2.error = none :=
    runInterval_alive_prefix env bookings (3 * 60) s2 (by rw [← hs3]; exact hfirst)
  have ha1 : s1.error = none :=
    runInterval_alive_prefix env bookings (24 * 60) s1 (by rw [← hs2]; exact ha2)
  have hm01 : ∀ r ∈ s0.reminders, r ∈ s1.reminders := by
    intro r hr
    rw [hs1]
    exact runInterval_reminders_mono env bookings (48 * 60) s0 r hr
  have hm12 : ∀ r ∈ s1.reminders, r ∈ s2.reminders := by
    intro r hr
    rw [hs2]
    exact runInterval_reminders_mono env bookings (24 * 60) s1 r hr
  have hm23 : ∀ r ∈ s2.reminders, r ∈ s3.reminders := by
    intro r hr
    rw [hs3]
    exact runInterval_reminders_mono env bookings (3 * 60) s2 r hr
  have hinv1 : ∀ b ∈ candidateBookings bookings s3.reminders env.now (48 * 60),
      validOrganizer b = false := by
    intro b hb
    cases hbv : validOrganizer b
    · rfl
    · exfalso
      have hb0 : b ∈ candidateBookings bookings s0.reminders env.now (48 * 60) :=
        candidates_anti bookings s0.reminders s3.reminders env.now (48 * 60)
          (fun r hr => hm23 r (hm12 r (hm01 r hr))) b hb
      have hrec1 : mkReminder b.id (48 * 60) ∈ s1.reminders := by
        rw [hs1]
        exact runInterval_writes_record env bookings (48 * 60) s0 b hb0 hbv
          (by rw [← hs1]; exact ha1)
      have hrec3 : mkReminder b.id (48 * 60) ∈ s3.reminders :=
        hm23 _ (hm12 _ hrec1)
      exact candidates_id_ne_of_record bookings s3.reminders env.now (48 * 60)
        b.id (mkReminder b.id (48 * 60)) hrec3 rfl rfl
        (by norm_num [mkReminder]) b hb rfl
  have hinv2 : ∀ b ∈ candidateBookings bookings s3.reminders env.now (24 * 60),
      validOrganizer b = false := by
    intro b hb
    cases hbv : validOrganizer b
    · rfl
    · exfalso
      have hb1 : b ∈ candidateBookings bookings s1.reminders env.now (24 * 60) :=
        candidates_anti bookings s1.reminders s3.reminders env.now (24 * 60)
          (fun r hr => hm23 r (hm12 r hr)) b hb
      have hrec2 : mkReminder b.id (24 * 60) ∈ s2.reminders := by
        rw [hs2]
        exact runInterval_writes_record env bookings (24 * 60) s1 b hb1 hbv
          (by rw [← hs2]; exact ha2)
      have hrec3 : mkReminder b.id (24 * 60) ∈ s3.reminders := hm23 _ hrec2
      exact candidates_id_ne_of_record bookings s3.reminders env.now (24 * 60)
        b.id (mkReminder b.id (24 * 60)) hrec3 rfl rfl
        (by norm_num [mkReminder]) b hb rfl
  have hinv3 : ∀ b ∈ candidateBookings bookings s3.reminders env.now (3 * 60),
      validOrganizer b = false := by
    intro b hb
    cases hbv : validOrganizer b
    · rfl
    · exfalso
      have hb2 : b ∈ candidateBookings bookings s2.reminders env.now (3 * 60) :=
        candidates_anti bookings s2.reminders s3.reminders env.now (3 * 60)
          hm23 b hb
      have hrec3 : mkReminder b.id (3 * 60) ∈ s3.reminders := by
        rw [hs3]
        exact runInterval_writes_record env bookings (3 * 60) s2 b hb2 hbv
          (by rw [← hs3]; exact hfirst)
      exact candidates_id_ne_of_record bookings s3.reminders env.now (3 * 60)
        b.id (mkReminder b.id (3 * 60)) hrec3 rfl rfl
        (by norm_num [mkReminder]) b hb rfl
  have hrun2 : runDispatch env bookings s3.reminders =
      runInterval env bookings (3 * 60)
        (runInterval env bookings (24 * 60)
          (runInterval env bookings (48 * 60) (initRunState s3.reminders))) := rfl
  rw [hrun2]
  set t0 := initRunState s3.reminders with ht0
  have ht0e : t0.error = none := rfl
  have ht0r : t0.reminders = s3.reminders := rfl
  have hinvt1 : ∀ b ∈ candidateBookings bookings t0.reminders env.now (48 * 60),
      validOrganizer b = false := by
    rw [ht0r]
    exact hinv1
  set t1 := runInterval env bookings (48 * 60) t0 with ht1
  have hp1 := runInterval_invalid_noop env bookings (48 * 60) t0 ht0e hinvt1
  rw [← ht1] at hp1
  obtain ⟨hr1, hn1, hsid1, he1⟩ := hp1
  have hinvt2 : ∀ b ∈ candidateBookings bookings t1.reminders env.now (24 * 60),
      validOrganizer b = false := by
    rw [hr1, ht0r]
    exact hinv2
  set t2 := runInterval env bookings (24 * 60) t1 with ht2
  have hp2 := runInterval_invalid_noop env bookings (24 * 60) t1 he1 hinvt2
  rw [← ht2] at hp2
  obtain ⟨hr2, hn2, hsid2, he2⟩ := hp2
  have hinvt3 : ∀ b ∈ candidateBookings bookings t2.reminders env.now (3 * 60),
      validOrganizer b = false := by
    rw [hr2, hr1, ht0r]
    exact hinv3
  have hp3 := runInterval_invalid_noop env bookings (3 * 60) t2 he2 hinvt3
  refine ⟨?_, ?_, ?_⟩
  · rw [hp3.2.1, hn2, hn1]
    rfl
  · rw [hp3.2.2.1, hsid2, hsid1]
    rfl
  · rw [hp3.1, hr2, hr1]
    exact ht0r

/-- C4 witness: the theorem applied to the base environment and a booking
old enough for every threshold: the first run completes, and the repeated
run dispatches nothing and leaves the ledger as the first run wrote it. -/
theorem claim_C4_witness :
    (runDispatch envBase [bOld]
        (runDispatch envBase [bOld] []).reminders).notificationsSent = 0 ∧
    (runDispatch envBase [bOld]
        (runDispatch envBase [bOld] []).reminders).sentIds = [] ∧
    (runDispatch envBase [bOld]
        (runDispatch envBase [bOld] []).reminders).reminders =
      (runDispatch envBase [bOld] []).reminders :=
  claim_C4_second_run_idempotent envBase [bOld] [] (by decide)
